import Mathlib

/-!
Verification of the what-the-faq crawler and FAQ-generation pipeline.

The definitions below are a shallow embedding of the TypeScript sources:
* `src/scripts/test-scraper.ts` — `scrapeWebsite`, the BFS crawler with an
  explicit `{url, depth}` frontier queue and a visited set;
* `src/trigger/scrape-website.ts` — `scrapeWebsiteTask`, the Trigger.dev
  task with its own simpler crawl loop and in-page link filter;
* `src/trigger/generate-faq.ts` — `withRetry` and `generateFAQTask`.

External collaborators (the headless browser, Node's `URL` class, the LLM
backend, `JSON.parse`) are modelled as environment records of functions;
everything the repository itself computes (the loop structure, the link
filters, the statistics, the retry/backoff arithmetic) is translated
directly.  JavaScript `number` division that can produce `NaN`/`Infinity`
is modelled with `Option`: `none` stands for the non-finite result.
-/

namespace WhatTheFAQ

/-! ### Shared string helpers

`absoluteUrl.includes('#')`, `href.startsWith('http')`,
`href.includes(domain)` and the case-insensitive file-extension regex
`/\.(pdf|jpg|jpeg|png|gif|mp4|zip|rar)$/i` from the sources, modelled over
the character lists of Lean strings. -/

/-- `u.includes('#')` — does the URL contain a fragment marker? -/
def hasFragment (u : String) : Bool :=
  u.data.any fun c => c = '#'

/-- The non-HTML file extensions excluded by the crawlers. -/
def fileExtensions : List String :=
  ["pdf", "jpg", "jpeg", "png", "gif", "mp4", "zip", "rar"]

/-- Character-wise lowercasing (for the `/i` regex flag). -/
def lowerStr (s : String) : String :=
  ⟨s.data.map Char.toLower⟩

/-- `u.match(/\.(pdf|jpg|jpeg|png|gif|mp4|zip|rar)$/i)` — case-insensitive
end-anchored extension match. -/
def hasFileExt (u : String) : Bool :=
  fileExtensions.any fun ext => List.isSuffixOf ("." ++ ext).data (lowerStr u).data

/-- `s.startsWith('http')`. -/
def startsWithHttp (s : String) : Bool :=
  List.isPrefixOf "http".data s.data

/-- Substring search on character lists (JavaScript `String.includes`). -/
def containsSubAux (needle : List Char) : List Char → Bool
  | [] => needle.isEmpty
  | c :: rest => List.isPrefixOf needle (c :: rest) || containsSubAux needle rest

/-- `hay.includes(needle)` for JavaScript strings. -/
def containsSub (hay needle : String) : Bool :=
  containsSubAux needle.data hay.data

/-! ### Data model of the crawler (`src/scripts/test-scraper.ts`) -/

/-- The `ScrapedPage` interface. -/
structure ScrapedPage where
  url : String
  title : String
  content : String
  headings : List String
  links : List String
  deriving DecidableEq, Repr

/-- What one successful `page.goto` + `page.evaluate` round produces for
`scrapeWebsite`: the title, extracted main content, headings, and the raw
(not yet scope-filtered) href list. -/
structure PageData where
  title : String
  content : String
  headings : List String
  links : List String
  deriving DecidableEq, Repr

/-- A `{url, depth}` entry of the BFS frontier queue. -/
structure FrontierEntry where
  url : String
  depth : Nat
  deriving DecidableEq, Repr

/-- The external collaborators of `scrapeWebsite`: the rendering backend
(`fetch`: `none` means the page-level try/catch fired) and Node's `URL`
class (`resolve` is `new URL(link, base).href`, `hostname` is
`new URL(u).hostname`; `none` means the constructor threw). -/
structure CrawlEnv where
  fetch : String → Option PageData
  resolve : String → String → Option String
  hostname : String → Option String

/-- The scope filter of `scrapeWebsite`'s link loop:
`linkDomain === currentDomain && !visited.has(absoluteUrl) &&
!absoluteUrl.includes('#') && !absoluteUrl.match(/\.(…)$/i)`, where both
hostnames must have parsed (otherwise the per-link catch fires). -/
def LinkAllowed (env : CrawlEnv) (visited : List String)
    (currentUrl absoluteUrl : String) : Prop :=
  (env.hostname absoluteUrl).isSome = true ∧
  env.hostname absoluteUrl = env.hostname currentUrl ∧
  absoluteUrl ∉ visited ∧
  hasFragment absoluteUrl = false ∧
  hasFileExt absoluteUrl = false

instance (env : CrawlEnv) (visited : List String) (currentUrl absoluteUrl : String) :
    Decidable (LinkAllowed env visited currentUrl absoluteUrl) := by
  unfold LinkAllowed; infer_instance

/-- The `for (const link of links)` loop of `scrapeWebsite` only appends
qualifying absolute URLs at the back of the queue, in order, and the
visited set does not change while it runs; so the batch of pushed URLs is
this filter of the page's links. -/
def allowedLinks (env : CrawlEnv) (visited : List String) (currentUrl : String)
    (links : List String) : List String :=
  links.filterMap fun link =>
    match env.resolve link currentUrl with
    | none => none
    | some absoluteUrl =>
        if LinkAllowed env visited currentUrl absoluteUrl then some absoluteUrl else none

/-- The mutable state of `scrapeWebsite`'s while-loop.  `trace` and
`enqueued` are instrumentation: `trace` records every dequeued frontier
entry in dequeue order, `enqueued` every URL ever pushed onto the queue
(the seed included); neither influences the loop. -/
structure CrawlState where
  queue : List FrontierEntry
  visited : List String
  results : List ScrapedPage
  trace : List FrontierEntry
  enqueued : List String
  deriving DecidableEq, Repr

/-- `queue.push({url: startUrl, depth: 0})` before the loop. -/
def initState (startUrl : String) : CrawlState :=
  ⟨[⟨startUrl, 0⟩], [], [], [], [startUrl]⟩

/-- One iteration of `while (queue.length > 0 && results.length < maxPages)`.
`none` means the loop guard failed and the crawl returns.  The `ScrapedPage`
stores `links.filter(Boolean)` while the link loop walks the unfiltered
list, as in the source. -/
def crawlStep (env : CrawlEnv) (maxPages : Nat) (st : CrawlState) : Option CrawlState :=
  match st.queue with
  | [] => none
  | e :: rest =>
    if maxPages ≤ st.results.length then none
    else if e.url ∈ st.visited then
      some { st with queue := rest, trace := st.trace ++ [e] }
    else
      let visited' := st.visited ++ [e.url]
      match env.fetch e.url with
      | none => some { st with queue := rest, visited := visited', trace := st.trace ++ [e] }
      | some pd =>
        let page : ScrapedPage :=
          ⟨e.url, pd.title, pd.content, pd.headings, pd.links.filter fun s => !s.isEmpty⟩
        let newUrls := allowedLinks env visited' e.url pd.links
        some { queue := rest ++ newUrls.map fun u => ⟨u, e.depth + 1⟩,
               visited := visited',
               results := st.results ++ [page],
               trace := st.trace ++ [e],
               enqueued := st.enqueued ++ newUrls }

/-- Fuel-indexed iteration of `crawlStep`; the source loop terminates (only
successful fetches, at most `maxPages` of them, ever enqueue), and every
property proved below holds for every fuel value. -/
def crawlLoop (env : CrawlEnv) (maxPages : Nat) : Nat → CrawlState → CrawlState
  | 0, st => st
  | n + 1, st =>
    match crawlStep env maxPages st with
    | none => st
    | some st' => crawlLoop env maxPages n st'

/-- `scrapeWebsite(startUrl, maxPages)`: the list of scraped pages the
crawl returns on its success path. -/
def scrapeWebsite (env : CrawlEnv) (startUrl : String) (maxPages fuel : Nat) :
    List ScrapedPage :=
  (crawlLoop env maxPages fuel (initState startUrl)).results

/-! ### The Trigger.dev crawl task (`src/trigger/scrape-website.ts`) -/

/-- What `page.evaluate` inside `scrapeWebsiteTask` sees: the document
title, main content, headings, the page's own `window.location.hostname`,
and the raw `a.href` values (absolute, as the DOM property yields them)
before the in-page filter runs. -/
structure TaskPageData where
  title : String
  content : String
  headings : List String
  hostname : String
  rawLinks : List String
  deriving DecidableEq, Repr

/-- External collaborators of `scrapeWebsiteTask`: browser initialization
(`browserOk = false` means `initializeBrowser` threw), navigation
(`goto u = false` means `page.goto` threw), evaluation (`none` means
`page.evaluate` threw), and `URL` hostname semantics used to state the
same-site claims. -/
structure TaskEnv where
  browserOk : Bool
  goto : String → Bool
  evaluate : String → Option TaskPageData
  hostname : String → Option String

/-- The in-page link filter of `scrapeWebsiteTask`:
`href.includes(domain) && href.startsWith('http') && !href.includes('#')
&& !href.match(/\.(…)$/i)` — note the first conjunct is a *substring*
test against the current page's hostname, not a hostname comparison. -/
def taskLinkOk (domain href : String) : Bool :=
  containsSub href domain && startsWithHttp href &&
  !hasFragment href && !hasFileExt href

/-- `Array.from(new Set(links))` — deduplication keeping first occurrences
in insertion order. -/
def dedupFirstAux (seen : List String) : List String → List String
  | [] => []
  | x :: xs =>
    if x ∈ seen then dedupFirstAux seen xs
    else x :: dedupFirstAux (seen ++ [x]) xs

/-- JavaScript `Array.from(new Set(l))`. -/
def dedupFirst (l : List String) : List String :=
  dedupFirstAux [] l

/-- The `links` field the task's `page.evaluate` returns. -/
def taskPageLinks (pd : TaskPageData) : List String :=
  dedupFirst (pd.rawLinks.filter (taskLinkOk pd.hostname))

/-- Mutable state of `scrapeWebsiteTask`'s while-loop (`toVisit` is a plain
URL list, no depth tracking in this version). -/
structure TaskState where
  toVisit : List String
  visited : List String
  results : List ScrapedPage
  deriving DecidableEq, Repr

/-- One iteration of `while (toVisit.length > 0 && results.length < maxPages)`.
`visited.add(currentUrl)` only happens after a successful `goto`; a `goto`
or `evaluate` throw is caught and the loop continues. -/
def taskStep (env : TaskEnv) (maxPages : Nat) (st : TaskState) : Option TaskState :=
  match st.toVisit with
  | [] => none
  | currentUrl :: rest =>
    if maxPages ≤ st.results.length then none
    else if currentUrl ∈ st.visited then
      some { st with toVisit := rest }
    else if env.goto currentUrl then
      let visited' := st.visited ++ [currentUrl]
      match env.evaluate currentUrl with
      | none => some { st with toVisit := rest, visited := visited' }
      | some pd =>
        let links := taskPageLinks pd
        some { toVisit := rest ++ links.filter fun l => l ∉ visited',
               visited := visited',
               results := st.results ++ [⟨currentUrl, pd.title, pd.content, pd.headings, links⟩] }
    else
      some { st with toVisit := rest }

/-- Fuel-indexed iteration of `taskStep`. -/
def taskLoop (env : TaskEnv) (maxPages : Nat) : Nat → TaskState → TaskState
  | 0, st => st
  | n + 1, st =>
    match taskStep env maxPages st with
    | none => st
    | some st' => taskLoop env maxPages n st'

/-- The crawl portion of `scrapeWebsiteTask.run`, started from
`toVisit = [url]`. -/
def taskCrawl (env : TaskEnv) (url : String) (maxPages fuel : Nat) : TaskState :=
  taskLoop env maxPages fuel ⟨[url], [], []⟩

/-- The `stats` object of the task's success return.
`averageContentLength` is `Math.round(totalContent / totalPages)`; with
zero pages this is `Math.round(0/0) = NaN`, modelled as `none`. -/
structure ScrapeStats where
  totalPages : Nat
  totalContent : Nat
  averageContentLength : Option ℤ
  deriving DecidableEq, Repr

/-- The shape of `scrapeWebsiteTask.run`'s return value. -/
structure ScrapeTaskResult where
  success : Bool
  pages : Option (List ScrapedPage)
  stats : Option ScrapeStats
  error : Option String
  deriving DecidableEq, Repr

/-- `Math.round(num / den)` on JavaScript numbers; `none` is the
non-finite outcome of a zero denominator (here always `NaN` from `0/0`,
since a zero denominator means an empty result list).  JavaScript
`Math.round` is `⌊x + 1/2⌋`, which is Mathlib's `round` on `ℚ` for the
non-negative values that occur. -/
def jsRoundDiv (num den : Nat) : Option ℤ :=
  if den = 0 then none else some (round ((num : ℚ) / (den : ℚ)))

/-- `results.reduce((acc, page) => acc + page.content.length, 0)`. -/
def totalContentLength (results : List ScrapedPage) : Nat :=
  (results.map fun p => p.content.length).sum

/-- The success return of `scrapeWebsiteTask.run`. -/
def scrapeTaskReturn (results : List ScrapedPage) : ScrapeTaskResult :=
  { success := true,
    pages := some results,
    stats := some ⟨results.length, totalContentLength results,
                   jsRoundDiv (totalContentLength results) results.length⟩,
    error := none }

/-- `scrapeWebsiteTask.run`: browser initialization failure is the only
fatal path (`success:false`); everything else returns `success:true` with
the crawl's results. -/
def scrapeWebsiteTaskRun (env : TaskEnv) (url : String) (maxPages fuel : Nat)
    (errMsg : String) : ScrapeTaskResult :=
  if env.browserOk then scrapeTaskReturn (taskCrawl env url maxPages fuel).results
  else { success := false, pages := none, stats := none, error := some errMsg }

/-! ### Retry executor (`withRetry` in `src/trigger/generate-faq.ts`) -/

/-- The `ErrorCategory` enum. -/
inductive ErrorCategory
  | transient
  | permanent
  | validation
  deriving DecidableEq, Repr

/-- A thrown JavaScript error as `withRetry` observes it: `classified` is
`some c` when the error is a `FAQGenerationError` or `DatabaseError`
carrying category `c` (the `instanceof` checks), `none` for any other
thrown value. -/
structure JsError where
  message : String
  classified : Option ErrorCategory
  deriving DecidableEq, Repr

/-- What one call of `withRetry` did: its outcome (`Except.error none` is
the `throw lastError` with `lastError` still `undefined`, reachable only
when `maxAttempts = 0`), how many attempts ran, and the backoff delays
slept between attempts, in order. -/
structure RetryOutcome (α : Type) where
  result : Except (Option JsError) α
  attemptsMade : Nat
  delays : List ℚ
  deriving Repr

/-- The `for (attempt = 1; attempt <= maxAttempts; attempt++)` loop of
`withRetry`.  `op k` is the deterministic outcome of the kth attempt of
the wrapped operation; `jitter k` is the value `Math.random() * 1000`
drawn before attempt `k+1`; `left` is the number of attempts still
allowed, so `left = 0` exactly when the loop has exhausted `maxAttempts`
and `throw lastError` runs.  A `permanent`-classified error is re-thrown
at once; any other error falls through to the backoff
`delayMs * 2^(attempt-1) + jitter` unless `attempt === maxAttempts`. -/
def retryLoop {α : Type} (op : Nat → Except JsError α) (delayMs : ℚ) (jitter : Nat → ℚ) :
    Nat → Nat → List ℚ → Option JsError → RetryOutcome α
  | _, 0, delays, lastErr => ⟨Except.error lastErr, 0, delays⟩
  | attempt, left + 1, delays, _ =>
    match op attempt with
    | Except.ok v => ⟨Except.ok v, attempt, delays⟩
    | Except.error e =>
      if e.classified = some ErrorCategory.permanent then
        ⟨Except.error (some e), attempt, delays⟩
      else if left = 0 then
        ⟨Except.error (some e), attempt, delays⟩
      else
        retryLoop op delayMs jitter (attempt + 1) left
          (delays ++ [delayMs * 2 ^ (attempt - 1) + jitter attempt]) (some e)

/-- `withRetry(operation, errorCategory, maxAttempts = 3, delayMs = 1000)`.
The `errorCategory` argument is only logged by the source, so it does not
appear here; retry decisions look solely at the thrown error. -/
def withRetry {α : Type} (op : Nat → Except JsError α) (maxAttempts : Nat)
    (delayMs : ℚ) (jitter : Nat → ℚ) : RetryOutcome α :=
  retryLoop op delayMs jitter 1 maxAttempts [] none

/-! ### FAQ generation pipeline (`generateFAQTask` in
`src/trigger/generate-faq.ts`) -/

/-- The `category` enum of the zod `FAQSchema.metadata`. -/
inductive FAQCategory
  | product
  | service
  | technical
  | support
  | pricing
  | other
  deriving DecidableEq, Repr

/-- The optional `metadata` object of an FAQ record. -/
structure FAQMetadata where
  relevance : ℚ
  category : FAQCategory
  keywords : List String
  deriving DecidableEq, Repr

/-- One FAQ record (the zod `FAQSchema` shape). -/
structure FAQ where
  question : String
  answer : String
  confidence : ℚ
  sourceUrl : String
  sourcePage : String
  metadata : Option FAQMetadata
  deriving DecidableEq, Repr

/-- The zod `FAQResponseSchema` shape: `{ faqs: [...] }`. -/
structure FAQResponse where
  faqs : List FAQ
  deriving DecidableEq, Repr

/-- The numeric/length bounds the zod `FAQSchema` enforces
(`question` 10–200 chars, `answer` 20–1000 chars, `confidence` 0–1,
`metadata.relevance` 0–1 when present; the `.url()` format test on
`sourceUrl` is external string parsing and is not modelled). -/
def faqSchemaOk (f : FAQ) : Bool :=
  decide (10 ≤ f.question.length) && decide (f.question.length ≤ 200) &&
  decide (20 ≤ f.answer.length) && decide (f.answer.length ≤ 1000) &&
  decide (0 ≤ f.confidence) && decide (f.confidence ≤ 1) &&
  (match f.metadata with
   | none => true
   | some m => decide (0 ≤ m.relevance) && decide (m.relevance ≤ 1))

/-- Validation of a whole parsed response against `FAQResponseSchema`. -/
def responseSchemaOk (r : FAQResponse) : Bool :=
  r.faqs.all faqSchemaOk

/-- `FAQResponseSchema.parse(JSON.parse(...))`: `jsonParse` models the
external `JSON.parse` of the fence-stripped model text together with zod's
shape check, and the repository's field bounds are then enforced; `none`
means the `try { ... } catch` around the parse fired. -/
def parseFAQResponse (jsonParse : String → Option FAQResponse) (text : String) :
    Option FAQResponse :=
  match jsonParse text with
  | none => none
  | some r => if responseSchemaOk r then some r else none

/-- The `options` object of the task payload
(`maxFaqsPerPage` default 5, `minConfidence` default 0.7). -/
structure FAQOptions where
  maxFaqsPerPage : Nat
  minConfidence : ℚ
  preferredCategories : Option (List String)
  deriving DecidableEq, Repr

/-- The `stats` object of `generateFAQTask`'s success return.
`averageConfidence` is an unguarded division, `NaN` (`none`) when the
parsed `faqs` array is empty. -/
structure FAQStats where
  totalFaqs : Nat
  processedChunks : Nat
  totalTokens : Nat
  averageConfidence : Option ℚ
  processingTimeMs : Nat
  model : String
  deriving DecidableEq, Repr

/-- The `TaskResult` shape of `generateFAQTask`. -/
structure GenTaskResult where
  success : Bool
  faqs : Option (List FAQ)
  text : Option String
  stats : Option FAQStats
  error : Option String
  deriving DecidableEq, Repr

/-- `estimateTokens(text, charsPerToken = 4)`:
`Math.ceil(text.length / charsPerToken)`. -/
def estimateTokens (textLen charsPerToken : Nat) : Nat :=
  (textLen + charsPerToken - 1) / charsPerToken

/-- JavaScript number division with a natural denominator; `none` is the
non-finite result of dividing by zero (`0/0 = NaN` in the occurrences
below). -/
def jsDivQ (num : ℚ) (den : Nat) : Option ℚ :=
  if den = 0 then none else some (num / (den : ℚ))

/-- `parsedFaqs.faqs.reduce((acc, faq) => acc + faq.confidence, 0)`. -/
def sumConfidence (faqs : List FAQ) : ℚ :=
  (faqs.map FAQ.confidence).sum

/-- External collaborators of `generateFAQTask.run`: whether the
`generateText` call succeeded, the text it returned, the `JSON.parse` +
shape layer, and the wall-clock `Date.now() - startTime`. -/
structure GenEnv where
  genOk : Bool
  modelText : String
  jsonParse : String → Option FAQResponse
  elapsedMs : Nat

/-- `generateFAQTask.run`.  After a successful parse the task returns
`success:true` with the raw response text and statistics over *all* parsed
records; it never builds a `faqs` list (the `TaskResult.faqs` field stays
`undefined`) and never reads `options.minConfidence`.  Any throw —
generation failure or parse/validation failure — is caught and surfaced as
`success:false`. -/
def generateFAQRun (env : GenEnv) (pages : List ScrapedPage) (options : FAQOptions) :
    GenTaskResult :=
  if env.genOk then
    match parseFAQResponse env.jsonParse env.modelText with
    | none =>
        { success := false, faqs := none, text := none, stats := none,
          error := some "parse error" }
    | some parsed =>
        { success := true,
          faqs := none,
          text := some env.modelText,
          stats := some
            { totalFaqs := parsed.faqs.length,
              processedChunks := 1,
              totalTokens := estimateTokens env.modelText.length 4,
              averageConfidence := jsDivQ (sumConfidence parsed.faqs) parsed.faqs.length,
              processingTimeMs := env.elapsedMs,
              model := "gpt-4o" },
          error := none }
  else
    { success := false, faqs := none, text := none, stats := none,
      error := some "generation error" }

/-! ### Invariant predicates -/

/-- The dedup invariant of a crawl state: the visited set has no
duplicates, no URL occurs twice among the results, and every result URL
has been marked visited. -/
def NodupInv (visited : List String) (results : List ScrapedPage) : Prop :=
  visited.Nodup ∧ (results.map ScrapedPage.url).Nodup ∧
    ∀ r ∈ results, r.url ∈ visited

/-- Every queued URL and every result URL of `scrapeWebsite` has the
seed's hostname (as computed by the `URL` class of the environment). -/
def SameHostInv (env : CrawlEnv) (seed : String) (st : CrawlState) : Prop :=
  (∀ e ∈ st.queue, env.hostname e.url = env.hostname seed) ∧
    ∀ r ∈ st.results, env.hostname r.url = env.hostname seed

/-- Every URL ever pushed onto `scrapeWebsite`'s frontier is either the
seed itself or fragment-free: the scope filter drops any URL containing
`#` outright (no normalization ever happens). -/
def NoFragmentInv (seed : String) (st : CrawlState) : Prop :=
  ∀ u ∈ st.enqueued, u = seed ∨ hasFragment u = false

/-- The BFS order invariant of `scrapeWebsite`: the depths of the already
dequeued entries followed by the depths still in the queue form a
non-decreasing sequence, and every queued depth exceeds the front depth by
at most one. -/
def DepthInv (st : CrawlState) : Prop :=
  List.Pairwise (· ≤ ·) ((st.trace ++ st.queue).map FrontierEntry.depth) ∧
    ∀ x ∈ st.queue, ∀ f ∈ st.queue.head?, x.depth ≤ f.depth + 1

/-! ### Concrete test fixtures

Small closed websites and environments used to instantiate the theorems
below at concrete inputs. -/

/-- A one-page site with no links, used to exercise `scrapeWebsite`. -/
def envOnePage : CrawlEnv :=
  { fetch := fun u =>
      if u = "https://w.com/" then some ⟨"T", "c", [], []⟩ else none,
    resolve := fun _ _ => none,
    hostname := fun u => if u = "https://w.com/" then some "w.com" else none }

/-- The page `envOnePage`'s crawl produces. -/
def pageOnePage : ScrapedPage :=
  ⟨"https://w.com/", "T", "c", [], []⟩

/-- A site whose seed page links to the same target under two different
fragments (`/page#a` and `/page#b`); the fragment-free target
`https://e.com/page` itself is fetchable. -/
def envFragment : CrawlEnv :=
  { fetch := fun u =>
      if u = "https://e.com/" then some ⟨"Home", "c", [], ["/page#a", "/page#b"]⟩
      else if u = "https://e.com/page" then some ⟨"P", "c", [], []⟩
      else none,
    resolve := fun link base =>
      if base = "https://e.com/" ∧ link = "/page#a" then some "https://e.com/page#a"
      else if base = "https://e.com/" ∧ link = "/page#b" then some "https://e.com/page#b"
      else none,
    hostname := fun u =>
      if u = "https://e.com/" ∨ u = "https://e.com/page#a" ∨
         u = "https://e.com/page#b" ∨ u = "https://e.com/page" then some "e.com"
      else none }

/-- A site for `scrapeWebsiteTask` whose seed page (hostname `a.com`)
links to `http://a.com.evil.net/p` — a cross-domain URL that contains
`a.com` as a substring and therefore passes the task's
`href.includes(domain)` filter. -/
def envEvil : TaskEnv :=
  { browserOk := true,
    goto := fun _ => true,
    evaluate := fun u =>
      if u = "http://a.com/" then
        some ⟨"Home", "hello", [], "a.com", ["http://a.com.evil.net/p"]⟩
      else if u = "http://a.com.evil.net/p" then
        some ⟨"Evil", "gotcha", [], "a.com.evil.net", []⟩
      else none,
    hostname := fun u =>
      if u = "http://a.com/" then some "a.com"
      else if u = "http://a.com.evil.net/p" then some "a.com.evil.net"
      else none }

/-- The cross-domain page that `envEvil`'s crawl scrapes. -/
def evilPage : ScrapedPage :=
  ⟨"http://a.com.evil.net/p", "Evil", "gotcha", [], []⟩

/-- A task environment in which every navigation fails, so the crawl
completes with zero pages. -/
def envNoPages : TaskEnv :=
  { browserOk := true,
    goto := fun _ => false,
    evaluate := fun _ => none,
    hostname := fun _ => none }

/-- An FAQ record with confidence 0.5 satisfying all zod field bounds. -/
def faqHalf : FAQ :=
  { question := "What is WhatTheFAQ app?",
    answer := "It generates FAQs from scraped website content.",
    confidence := 1 / 2,
    sourceUrl := "https://e.com/",
    sourcePage := "Home",
    metadata := none }

/-- A generation environment whose model response parses to exactly the
one 0.5-confidence record. -/
def genEnvHalf : GenEnv :=
  { genOk := true,
    modelText := "RESP",
    jsonParse := fun t => if t = "RESP" then some ⟨[faqHalf]⟩ else none,
    elapsedMs := 5 }

/-- A generation environment whose model response parses to an empty
`faqs` array. -/
def genEnvEmpty : GenEnv :=
  { genOk := true,
    modelText := "EMPTY",
    jsonParse := fun t => if t = "EMPTY" then some ⟨[]⟩ else none,
    elapsedMs := 7 }

/-- `options` with `minConfidence = 0.3`. -/
def opts03 : FAQOptions := ⟨3, 3 / 10, none⟩

/-- `options` with the default `minConfidence = 0.7`. -/
def opts07 : FAQOptions := ⟨3, 7 / 10, none⟩

/-- An operation that always throws a `validation`-classified
`FAQGenerationError`. -/
def valErr : JsError := ⟨"schema mismatch", some ErrorCategory.validation⟩

/-- An operation failing with `valErr` on every attempt. -/
def valOp : Nat → Except JsError Nat := fun _ => Except.error valErr

/-- A `permanent`-classified error. -/
def permErr : JsError := ⟨"missing credential", some ErrorCategory.permanent⟩

/-- An operation failing with `permErr` on every attempt. -/
def permOp : Nat → Except JsError Nat := fun _ => Except.error permErr

/-- An operation that fails transiently twice, then succeeds. -/
def flaky23 : Nat → Except JsError Nat := fun k =>
  if k < 3 then Except.error ⟨"timeout", some ErrorCategory.transient⟩
  else Except.ok 42

/-- Jitter of 500 ms before every retry. -/
def jitter500 : Nat → ℚ := fun _ => 500

/-- Zero jitter. -/
def jitter0 : Nat → ℚ := fun _ => 0

/-! ### Invariant machinery for the two crawl loops -/

/-- Any property preserved by `crawlStep` is preserved by `crawlLoop`. -/
theorem crawlLoop_inv (env : CrawlEnv) (maxPages : Nat) (P : CrawlState → Prop)
    (hstep : ∀ st st', P st → crawlStep env maxPages st = some st' → P st') :
    ∀ fuel st, P st → P (crawlLoop env maxPages fuel st) := by
  intro fuel
  induction fuel with
  | zero => intro st h; exact h
  | succ n ih =>
    intro st h
    rw [crawlLoop]
    cases hc : crawlStep env maxPages st with
    | none => exact h
    | some st' => exact ih st' (hstep st st' h hc)

/-- Any property preserved by `taskStep` is preserved by `taskLoop`. -/
theorem taskLoop_inv (env : TaskEnv) (maxPages : Nat) (P : TaskState → Prop)
    (hstep : ∀ st st', P st → taskStep env maxPages st = some st' → P st') :
    ∀ fuel st, P st → P (taskLoop env maxPages fuel st) := by
  intro fuel
  induction fuel with
  | zero => intro st h; exact h
  | succ n ih =>
    intro st h
    rw [taskLoop]
    cases hc : taskStep env maxPages st with
    | none => exact h
    | some st' => exact ih st' (hstep st st' h hc)

/-- Every URL that `allowedLinks` lets through satisfied the scope filter. -/
theorem mem_allowedLinks {env : CrawlEnv} {visited : List String}
    {currentUrl : String} {links : List String} {u : String}
    (h : u ∈ allowedLinks env visited currentUrl links) :
    LinkAllowed env visited currentUrl u := by
  unfold allowedLinks at h
  rw [List.mem_filterMap] at h
  obtain ⟨link, -, hl⟩ := h
  cases hr : env.resolve link currentUrl with
  | none => rw [hr] at hl; exact absurd hl (by simp)
  | some abs =>
    rw [hr] at hl
    change (if LinkAllowed env visited currentUrl abs then some abs else none)
      = some u at hl
    by_cases hA : LinkAllowed env visited currentUrl abs
    · rw [if_pos hA] at hl
      cases hl
      exact hA
    · rw [if_neg hA] at hl
      exact absurd hl (by simp)

/-- Case analysis of one successful `crawlStep`: the dequeued entry, the
loop-guard facts, and the three possible successor states (already
visited / fetch failed / page scraped). -/
theorem crawlStep_some {env : CrawlEnv} {maxPages : Nat} {st st' : CrawlState}
    (h : crawlStep env maxPages st = some st') :
    ∃ e rest, st.queue = e :: rest ∧ st.results.length < maxPages ∧
      ((e.url ∈ st.visited ∧
          st' = { st with queue := rest, trace := st.trace ++ [e] }) ∨
       (e.url ∉ st.visited ∧ env.fetch e.url = none ∧
          st' = { st with queue := rest, visited := st.visited ++ [e.url],
                          trace := st.trace ++ [e] }) ∨
       (e.url ∉ st.visited ∧ ∃ pd, env.fetch e.url = some pd ∧
          st' = { queue := rest ++ (allowedLinks env (st.visited ++ [e.url]) e.url
                            pd.links).map (fun u => ⟨u, e.depth + 1⟩),
                  visited := st.visited ++ [e.url],
                  results := st.results ++
                    [⟨e.url, pd.title, pd.content, pd.headings,
                      pd.links.filter fun s => !s.isEmpty⟩],
                  trace := st.trace ++ [e],
                  enqueued := st.enqueued ++
                    allowedLinks env (st.visited ++ [e.url]) e.url pd.links })) := by
  unfold crawlStep at h
  split at h
  · exact absurd h (by simp)
  next e rest hq =>
    split at h
    · exact absurd h (by simp)
    next hguard =>
      split at h
      next hv =>
        exact ⟨e, rest, hq, lt_of_not_le hguard,
          Or.inl ⟨hv, (Option.some.inj h).symm⟩⟩
      next hv =>
        split at h
        next hf =>
          exact ⟨e, rest, hq, lt_of_not_le hguard,
            Or.inr (Or.inl ⟨hv, hf, (Option.some.inj h).symm⟩)⟩
        next pd hf =>
          exact ⟨e, rest, hq, lt_of_not_le hguard,
            Or.inr (Or.inr ⟨hv, pd, hf, (Option.some.inj h).symm⟩)⟩

/-- Case analysis of one successful `taskStep`: the dequeued URL, the
loop-guard fact, and the four possible successor states (already visited /
`goto` threw / `evaluate` threw / page scraped). -/
theorem taskStep_some {env : TaskEnv} {maxPages : Nat} {st st' : TaskState}
    (h : taskStep env maxPages st = some st') :
    ∃ u rest, st.toVisit = u :: rest ∧ st.results.length < maxPages ∧
      ((u ∈ st.visited ∧ st' = { st with toVisit := rest }) ∨
       (u ∉ st.visited ∧ env.goto u = false ∧ st' = { st with toVisit := rest }) ∨
       (u ∉ st.visited ∧ env.goto u = true ∧ env.evaluate u = none ∧
          st' = { st with toVisit := rest, visited := st.visited ++ [u] }) ∨
       (u ∉ st.visited ∧ env.goto u = true ∧ ∃ pd, env.evaluate u = some pd ∧
          st' = { toVisit := rest ++ (taskPageLinks pd).filter
                    (fun l => l ∉ st.visited ++ [u]),
                  visited := st.visited ++ [u],
                  results := st.results ++
                    [⟨u, pd.title, pd.content, pd.headings, taskPageLinks pd⟩] })) := by
  unfold taskStep at h
  split at h
  · exact absurd h (by simp)
  next u rest hq =>
    split at h
    · exact absurd h (by simp)
    next hguard =>
      split at h
      next hv =>
        exact ⟨u, rest, hq, lt_of_not_le hguard,
          Or.inl ⟨hv, (Option.some.inj h).symm⟩⟩
      next hv =>
        split at h
        next hg =>
          split at h
          next he =>
            exact ⟨u, rest, hq, lt_of_not_le hguard,
              Or.inr (Or.inr (Or.inl ⟨hv, hg, he, (Option.some.inj h).symm⟩))⟩
          next pd he =>
            exact ⟨u, rest, hq, lt_of_not_le hguard,
              Or.inr (Or.inr (Or.inr ⟨hv, hg, pd, he, (Option.some.inj h).symm⟩))⟩
        next hg =>
          exact ⟨u, rest, hq, lt_of_not_le hguard,
            Or.inr (Or.inl ⟨hv, Bool.not_eq_true _ ▸ eq_false_of_ne_true hg,
              (Option.some.inj h).symm⟩)⟩

/-! ### Page-budget invariant (claim C4) -/

/-- `crawlStep` never pushes `results` past `maxPages`: it only appends a
page when the loop guard `results.length < maxPages` held. -/
theorem crawlStep_results_le {env : CrawlEnv} {maxPages : Nat} {st st' : CrawlState}
    (hle : st.results.length ≤ maxPages)
    (h : crawlStep env maxPages st = some st') :
    st'.results.length ≤ maxPages := by
  obtain ⟨e, rest, -, hlt, hcase⟩ := crawlStep_some h
  rcases hcase with ⟨-, rfl⟩ | ⟨-, -, rfl⟩ | ⟨-, pd, -, rfl⟩
  · exact hle
  · exact hle
  · simpa using hlt

/-- `taskStep` never pushes `results` past `maxPages`. -/
theorem taskStep_results_le {env : TaskEnv} {maxPages : Nat} {st st' : TaskState}
    (hle : st.results.length ≤ maxPages)
    (h : taskStep env maxPages st = some st') :
    st'.results.length ≤ maxPages := by
  obtain ⟨u, rest, -, hlt, hcase⟩ := taskStep_some h
  rcases hcase with ⟨-, rfl⟩ | ⟨-, -, rfl⟩ | ⟨-, -, -, rfl⟩ | ⟨-, -, pd, -, rfl⟩
  · exact hle
  · exact hle
  · exact hle
  · simpa using hlt

/-! ### No-duplicates invariant (claim C5) -/

/-- Appending a fresh URL to the visited set and (possibly) one result
with that URL preserves `NodupInv`. -/
theorem NodupInv.extend {visited : List String} {results : List ScrapedPage}
    {u : String} (h : NodupInv visited results) (hu : u ∉ visited) :
    NodupInv (visited ++ [u]) results := by
  obtain ⟨hv, hr, hsub⟩ := h
  refine ⟨?_, hr, fun r hrmem => List.mem_append_left _ (hsub r hrmem)⟩
  rw [List.nodup_append]
  exact ⟨hv, List.nodup_singleton u, by simpa using fun hmem => hu hmem⟩

/-- `crawlStep` preserves the dedup invariant. -/
theorem crawlStep_nodup {env : CrawlEnv} {maxPages : Nat} {st st' : CrawlState}
    (h : NodupInv st.visited st.results)
    (hs : crawlStep env maxPages st = some st') :
    NodupInv st'.visited st'.results := by
  obtain ⟨e, rest, -, -, hcase⟩ := crawlStep_some hs
  rcases hcase with ⟨-, rfl⟩ | ⟨hv, -, rfl⟩ | ⟨hv, pd, -, rfl⟩
  · exact h
  · exact h.extend hv
  · obtain ⟨h1, h2, h3⟩ := h.extend hv
    refine ⟨h1, ?_, ?_⟩
    · rw [List.map_append, List.nodup_append]
      refine ⟨h2, by simp, ?_⟩
      intro a ha
      simp only [List.map_cons, List.map_nil, List.mem_singleton]
      rintro rfl
      rw [List.mem_map] at ha
      obtain ⟨r, hrmem, hru⟩ := ha
      exact hv (by simpa [hru] using (h.2.2 r hrmem))
    · intro r hrmem
      rcases List.mem_append.mp hrmem with hold | hnew
      · exact h3 r hold
      · simp only [List.mem_singleton] at hnew
        subst hnew
        exact List.mem_append_right _ (by simp)

/-- `taskStep` preserves the dedup invariant. -/
theorem taskStep_nodup {env : TaskEnv} {maxPages : Nat} {st st' : TaskState}
    (h : NodupInv st.visited st.results)
    (hs : taskStep env maxPages st = some st') :
    NodupInv st'.visited st'.results := by
  obtain ⟨u, rest, -, -, hcase⟩ := taskStep_some hs
  rcases hcase with ⟨-, rfl⟩ | ⟨-, -, rfl⟩ | ⟨hv, -, -, rfl⟩ | ⟨hv, -, pd, -, rfl⟩
  · exact h
  · exact h
  · exact h.extend hv
  · obtain ⟨h1, h2, h3⟩ := h.extend hv
    refine ⟨h1, ?_, ?_⟩
    · rw [List.map_append, List.nodup_append]
      refine ⟨h2, by simp, ?_⟩
      intro a ha
      simp only [List.map_cons, List.map_nil, List.mem_singleton]
      rintro rfl
      rw [List.mem_map] at ha
      obtain ⟨r, hrmem, hru⟩ := ha
      exact hv (by simpa [hru] using (h.2.2 r hrmem))
    · intro r hrmem
      rcases List.mem_append.mp hrmem with hold | hnew
      · exact h3 r hold
      · simp only [List.mem_singleton] at hnew
        subst hnew
        exact List.mem_append_right _ (by simp)

/-! ### Same-hostname invariant of `scrapeWebsite` (claim C3) -/

/-- `crawlStep` preserves the same-hostname invariant: links are enqueued
only when `linkDomain === currentDomain`. -/
theorem crawlStep_sameHost {env : CrawlEnv} {maxPages : Nat} {seed : String}
    {st st' : CrawlState} (h : SameHostInv env seed st)
    (hs : crawlStep env maxPages st = some st') :
    SameHostInv env seed st' := by
  obtain ⟨e, rest, hq, -, hcase⟩ := crawlStep_some hs
  have hqmem : ∀ x ∈ rest, env.hostname x.url = env.hostname seed :=
    fun x hx => h.1 x (hq ▸ List.mem_cons_of_mem e hx)
  have hcur : env.hostname e.url = env.hostname seed :=
    h.1 e (hq ▸ List.mem_cons_self e rest)
  rcases hcase with ⟨-, rfl⟩ | ⟨-, -, rfl⟩ | ⟨-, pd, -, rfl⟩
  · exact ⟨hqmem, h.2⟩
  · exact ⟨hqmem, h.2⟩
  · constructor
    · intro x hx
      rcases List.mem_append.mp hx with hold | hnew
      · exact hqmem x hold
      · rw [List.mem_map] at hnew
        obtain ⟨u, hu, rfl⟩ := hnew
        have hA := mem_allowedLinks hu
        exact hA.2.1.trans hcur
    · intro r hr
      rcases List.mem_append.mp hr with hold | hnew
      · exact h.2 r hold
      · simp only [List.mem_singleton] at hnew
        subst hnew
        exact hcur

/-! ### Fragment links are never enqueued (claim C8) -/

/-- `crawlStep` preserves the no-fragment invariant. -/
theorem crawlStep_noFragment {env : CrawlEnv} {maxPages : Nat} {seed : String}
    {st st' : CrawlState} (h : NoFragmentInv seed st)
    (hs : crawlStep env maxPages st = some st') :
    NoFragmentInv seed st' := by
  obtain ⟨e, rest, -, -, hcase⟩ := crawlStep_some hs
  rcases hcase with ⟨-, rfl⟩ | ⟨-, -, rfl⟩ | ⟨-, pd, -, rfl⟩
  · exact h
  · exact h
  · intro u hu
    rcases List.mem_append.mp hu with hold | hnew
    · exact h u hold
    · exact Or.inr (mem_allowedLinks hnew).2.2.2.1

/-! ### BFS depth order (claim C6) -/

/-- A list whose members are all equal is non-decreasing. -/
theorem pairwise_le_of_forall_eq {l : List Nat} {c : Nat} (h : ∀ x ∈ l, x = c) :
    List.Pairwise (· ≤ ·) l := by
  induction l with
  | nil => exact List.Pairwise.nil
  | cons a t ih =>
    refine List.Pairwise.cons ?_ (ih fun x hx => h x (List.mem_cons_of_mem a hx))
    intro b hb
    rw [h a (List.mem_cons_self a t), h b (List.mem_cons_of_mem a hb)]

/-- `crawlStep` preserves the BFS order invariant: the frontier is FIFO
and discovered links enter at the back with depth `parent + 1`. -/
theorem crawlStep_depth {env : CrawlEnv} {maxPages : Nat} {st st' : CrawlState}
    (h : DepthInv st) (hs : crawlStep env maxPages st = some st') :
    DepthInv st' := by
  obtain ⟨e, rest, hq, -, hcase⟩ := crawlStep_some hs
  have hP : List.Pairwise (· ≤ ·)
      ((st.trace ++ e :: rest).map FrontierEntry.depth) := hq ▸ h.1
  have h2 : ∀ x ∈ e :: rest, x.depth ≤ e.depth + 1 := by
    intro x hx
    have := h.2 x (hq ▸ hx)
    rw [hq] at this
    exact this e (by simp)
  rw [List.map_append, List.map_cons, List.pairwise_append] at hP
  obtain ⟨hA, hB, hC⟩ := hP
  rw [List.pairwise_cons] at hB
  obtain ⟨hBh, hBt⟩ := hB
  have hrest2 : ∀ x ∈ rest, ∀ f ∈ rest.head?, x.depth ≤ f.depth + 1 := by
    intro x hx f hf
    have hfr : f ∈ rest := List.mem_of_mem_head? hf
    have h1 : x.depth ≤ e.depth + 1 := h2 x (List.mem_cons_of_mem e hx)
    have h2' : e.depth ≤ f.depth := hBh _ (List.mem_map_of_mem _ hfr)
    omega
  have htq : ∀ rest', (st.trace ++ [e]) ++ rest' = st.trace ++ (e :: rest') := by
    intro rest'
    rw [List.append_assoc, List.singleton_append]
  rcases hcase with ⟨-, rfl⟩ | ⟨-, -, rfl⟩ | ⟨-, pd, -, rfl⟩
  · constructor
    · show List.Pairwise _ (((st.trace ++ [e]) ++ rest).map _)
      rw [htq, List.map_append, List.map_cons, List.pairwise_append,
        List.pairwise_cons]
      exact ⟨hA, ⟨hBh, hBt⟩, hC⟩
    · exact hrest2
  · constructor
    · show List.Pairwise _ (((st.trace ++ [e]) ++ rest).map _)
      rw [htq, List.map_append, List.map_cons, List.pairwise_append,
        List.pairwise_cons]
      exact ⟨hA, ⟨hBh, hBt⟩, hC⟩
    · exact hrest2
  · set news := (allowedLinks env (st.visited ++ [e.url]) e.url pd.links).map
      (fun u => (⟨u, e.depth + 1⟩ : FrontierEntry)) with hnewsdef
    have hnews : ∀ x ∈ news, x.depth = e.depth + 1 := by
      intro x hx
      rw [hnewsdef, List.mem_map] at hx
      obtain ⟨u, -, rfl⟩ := hx
      rfl
    constructor
    · show List.Pairwise _ (((st.trace ++ [e]) ++ (rest ++ news)).map _)
      have : (st.trace ++ [e]) ++ (rest ++ news)
          = (st.trace ++ e :: rest) ++ news := by
        rw [htq]
        simp [List.append_assoc]
      rw [this, List.map_append, List.pairwise_append]
      refine ⟨?_, ?_, ?_⟩
      · rw [List.map_append, List.map_cons, List.pairwise_append,
          List.pairwise_cons]
        exact ⟨hA, ⟨hBh, hBt⟩, hC⟩
      · refine pairwise_le_of_forall_eq (c := e.depth + 1) ?_
        intro y hy
        rw [List.mem_map] at hy
        obtain ⟨x, hx, rfl⟩ := hy
        exact hnews x hx
      · intro a ha b hb
        rw [List.mem_map] at hb
        obtain ⟨x, hx, rfl⟩ := hb
        rw [hnews x hx]
        rw [List.map_append, List.mem_append, List.map_cons] at ha
        rcases ha with hat | har
        · have : a ≤ e.depth := hC a hat e.depth (by simp)
          omega
        · rcases List.mem_cons.mp har with rfl | har'
          · omega
          · rw [List.mem_map] at har'
            obtain ⟨x', hx', rfl⟩ := har'
            have := h2 x' (List.mem_cons_of_mem e hx')
            omega
    · intro x hx f hf
      cases rest with
      | nil =>
        simp only [List.nil_append] at hx hf
        have hfn : f ∈ news := List.mem_of_mem_head? hf
        have := hnews x hx
        have := hnews f hfn
        omega
      | cons f' rest' =>
        have hf' : f' = f := by
          simpa using hf
        have hed : e.depth ≤ f.depth := by
          rw [← hf']
          exact hBh f'.depth (by simp)
        have hxm : x ∈ f' :: (rest' ++ news) := hx
        have hbound : x.depth ≤ e.depth + 1 := by
          rcases List.mem_cons.mp hxm with rfl | hx'
          · exact h2 x (by simp)
          · rcases List.mem_append.mp hx' with hr | hn
            · exact h2 x (by simp [hr])
            · have := hnews x hn
              omega
        omega

/-! ### Further shared helper lemmas -/

/-- The 0.5-confidence record satisfies all zod field bounds. -/
theorem faqHalf_ok : faqSchemaOk faqHalf = true := by
  simp only [faqSchemaOk, faqHalf, Bool.and_eq_true, decide_eq_true_eq]
  repeat' apply And.intro
  all_goals first | decide | norm_num

/-- `genEnvHalf`'s model response parses and validates to the single
0.5-confidence record. -/
theorem parseHalf : parseFAQResponse genEnvHalf.jsonParse genEnvHalf.modelText
    = some ⟨[faqHalf]⟩ := by
  simp [parseFAQResponse, genEnvHalf, responseSchemaOk, faqHalf_ok]

/-- `genEnvEmpty`'s model response parses and validates to an empty `faqs`
array. -/
theorem parseEmpty : parseFAQResponse genEnvEmpty.jsonParse genEnvEmpty.modelText
    = some ⟨[]⟩ := by
  simp [parseFAQResponse, genEnvEmpty, responseSchemaOk]

/-- With at least one attempt allowed, the retry loop performs at least
the attempt it starts at. -/
theorem retryLoop_ge {α : Type} (op : Nat → Except JsError α) (delayMs : ℚ)
    (jitter : Nat → ℚ) :
    ∀ left attempt delays lastErr, 1 ≤ left →
      attempt ≤ (retryLoop op delayMs jitter attempt left delays lastErr).attemptsMade := by
  intro left
  induction left with
  | zero => intro _ _ _ h; exact absurd h (by omega)
  | succ l ih =>
    intro attempt delays lastErr _
    rw [retryLoop]
    cases hop : op attempt with
    | ok v => simp
    | error e =>
      by_cases hperm : e.classified = some ErrorCategory.permanent
      · simp [hperm]
      · by_cases hl : l = 0
        · simp [hperm, hl]
        · have h2 := ih (attempt + 1)
            (delays ++ [delayMs * 2 ^ (attempt - 1) + jitter attempt]) (some e)
            (by omega)
          simp only [hperm, hl, if_false]
          omega

/-! ### Claim C4 -/

/-- C4: for every crawl with any seed URL and any `maxPages`, the number
of `ScrapedPage` results returned by `scrapeWebsite` and by
`scrapeWebsiteTask`'s loop never exceeds `maxPages`: both loops only
append a page while the guard `results.length < maxPages` holds. -/
theorem C4_results_le_maxPages (env : CrawlEnv) (tenv : TaskEnv) (seed url : String)
    (maxPages fuel tfuel : Nat) :
    (scrapeWebsite env seed maxPages fuel).length ≤ maxPages ∧
    (taskCrawl tenv url maxPages tfuel).results.length ≤ maxPages := by
  constructor
  · exact crawlLoop_inv env maxPages (fun st => st.results.length ≤ maxPages)
      (fun _ _ h hs => crawlStep_results_le h hs) fuel (initState seed)
      (by simp [initState])
  · exact taskLoop_inv tenv maxPages (fun st => st.results.length ≤ maxPages)
      (fun _ _ h hs => taskStep_results_le h hs) tfuel ⟨[url], [], []⟩ (by simp)

/-! ### Claim C5 -/

/-- C5: for every crawl, the visited set contains no duplicate URLs and no
URL appears twice in the output sequence of `ScrapedPage` results — in
both `scrapeWebsite` (which marks a URL visited at dequeue time and skips
already visited dequeues) and `scrapeWebsiteTask`'s loop (which marks it
after a successful navigation). -/
theorem C5_no_duplicates (env : CrawlEnv) (tenv : TaskEnv) (seed url : String)
    (maxPages fuel tfuel : Nat) :
    ((crawlLoop env maxPages fuel (initState seed)).visited.Nodup ∧
     ((scrapeWebsite env seed maxPages fuel).map ScrapedPage.url).Nodup) ∧
    ((taskCrawl tenv url maxPages tfuel).visited.Nodup ∧
     ((taskCrawl tenv url maxPages tfuel).results.map ScrapedPage.url).Nodup) := by
  have h1 := crawlLoop_inv env maxPages (fun st => NodupInv st.visited st.results)
    (fun _ _ h hs => crawlStep_nodup h hs) fuel (initState seed)
    ⟨by simp [initState], by simp [initState], by simp [initState]⟩
  have h2 := taskLoop_inv tenv maxPages (fun st => NodupInv st.visited st.results)
    (fun _ _ h hs => taskStep_nodup h hs) tfuel ⟨[url], [], []⟩
    ⟨by simp, by simp, by simp⟩
  exact ⟨⟨h1.1, h1.2.1⟩, h2.1, h2.2.1⟩

/-! ### Claim C6 -/

/-- C6: for every crawl of `scrapeWebsite`, the depths of dequeued
frontier entries are non-decreasing across the dequeue order: the frontier
is FIFO and discovered links enter at the back with depth `parent + 1`, so
no depth-`d+1` entry is processed before the depth-`d` entries already in
the frontier. -/
theorem C6_bfs_depth_monotone (env : CrawlEnv) (seed : String) (maxPages fuel : Nat) :
    List.Pairwise (· ≤ ·)
      ((crawlLoop env maxPages fuel (initState seed)).trace.map FrontierEntry.depth) := by
  have h := crawlLoop_inv env maxPages DepthInv
    (fun _ _ hp hs => crawlStep_depth hp hs) fuel (initState seed) ?_
  · have h1 := h.1
    rw [List.map_append, List.pairwise_append] at h1
    exact h1.1
  · constructor
    · simp [initState]
    · intro x hx f hf
      simp only [initState, List.mem_singleton] at hx
      simp only [initState, List.head?_cons, Option.mem_def, Option.some.injEq] at hf
      subst hx
      rw [← hf]
      omega

/-! ### Claim C3 (corrected) -/

/-- C3 fails on `scrapeWebsiteTask`: its in-page filter is the substring
test `href.includes(domain)`, so a crawl seeded at `http://a.com/`
(hostname `a.com`) follows `http://a.com.evil.net/p` — whose text merely
contains `a.com` — and returns it in a `success:true` result although its
hostname differs from the seed's. -/
theorem C3_counterexample :
    (scrapeWebsiteTaskRun envEvil "http://a.com/" 5 5 "err").success = true ∧
    (scrapeWebsiteTaskRun envEvil "http://a.com/" 5 5 "err").pages =
      some (taskCrawl envEvil "http://a.com/" 5 5).results ∧
    evilPage ∈ (taskCrawl envEvil "http://a.com/" 5 5).results ∧
    envEvil.hostname evilPage.url = some "a.com.evil.net" ∧
    envEvil.hostname "http://a.com/" = some "a.com" ∧
    envEvil.hostname evilPage.url ≠ envEvil.hostname "http://a.com/" := by
  exact ⟨rfl, rfl, by decide, by decide, by decide, by decide⟩

/-- C3 (amended): in `scrapeWebsite` (the scraper with the real hostname
comparison `linkDomain === currentDomain`) every produced
`ScrapedPage.url` has the seed URL's hostname, and no cross-domain link is
ever enqueued; `scrapeWebsiteTask`'s substring filter gives no such
guarantee. -/
theorem C3_amended_same_host (env : CrawlEnv) (seed : String) (maxPages fuel : Nat) :
    ∀ p ∈ scrapeWebsite env seed maxPages fuel,
      env.hostname p.url = env.hostname seed := by
  have h := crawlLoop_inv env maxPages (SameHostInv env seed)
    (fun _ _ hp hs => crawlStep_sameHost hp hs) fuel (initState seed)
    ⟨by simp [initState], by simp [initState]⟩
  exact fun p hp => h.2 p hp

/-- Witness for C3 (amended) at a concrete one-page site. -/
theorem C3_witness :
    pageOnePage ∈ scrapeWebsite envOnePage "https://w.com/" 5 5 ∧
    envOnePage.hostname pageOnePage.url = envOnePage.hostname "https://w.com/" :=
  ⟨by decide, C3_amended_same_host envOnePage "https://w.com/" 5 5 pageOnePage (by decide)⟩

/-! ### Claim C8 (corrected) -/

/-- C8 fails on the code: a link whose absolute form carries a fragment is
not normalized — it is dropped entirely by `!absoluteUrl.includes('#')`.
Seeded at `https://e.com/`, whose page links `/page#a` and `/page#b` (two
fragments of the same target), the crawler enqueues nothing: the
fragment-free `https://e.com/page` is never enqueued (the claim says it is
enqueued exactly once) and is never scraped. -/
theorem C8_counterexample :
    (crawlLoop envFragment 5 10 (initState "https://e.com/")).enqueued =
      ["https://e.com/"] ∧
    "https://e.com/page" ∉
      (crawlLoop envFragment 5 10 (initState "https://e.com/")).enqueued ∧
    (crawlLoop envFragment 5 10 (initState "https://e.com/")).results.map
      ScrapedPage.url = ["https://e.com/"] ∧
    (crawlLoop envFragment 5 10 (initState "https://e.com/")).queue = [] ∧
    envFragment.resolve "/page#a" "https://e.com/" = some "https://e.com/page#a" ∧
    envFragment.resolve "/page#b" "https://e.com/" = some "https://e.com/page#b" := by
  exact ⟨by decide, by decide, by decide, by decide, by decide, by decide⟩

/-- C8 (amended): `scrapeWebsite` never strips fragments; a discovered
link containing `#` is simply never enqueued, so every URL ever pushed
onto the frontier — other than the seed itself — is fragment-free. -/
theorem C8_amended_fragment_dropped (env : CrawlEnv) (seed : String)
    (maxPages fuel : Nat) :
    ∀ u ∈ (crawlLoop env maxPages fuel (initState seed)).enqueued,
      u = seed ∨ hasFragment u = false := by
  have h := crawlLoop_inv env maxPages (NoFragmentInv seed)
    (fun _ _ hp hs => crawlStep_noFragment hp hs) fuel (initState seed) ?_
  · exact h
  · intro u hu
    simp only [initState, List.mem_singleton] at hu
    exact Or.inl hu

/-- Witness for C8 (amended) at the concrete fragment site. -/
theorem C8_witness :
    "https://e.com/" ∈ (crawlLoop envFragment 5 10 (initState "https://e.com/")).enqueued ∧
    ("https://e.com/" = "https://e.com/" ∨ hasFragment "https://e.com/" = false) :=
  ⟨by decide,
   C8_amended_fragment_dropped envFragment "https://e.com/" 5 10 "https://e.com/" (by decide)⟩

/-! ### Claim C1 (corrected) -/

/-- C1 fails on the code: `generateFAQTask` never reads
`options.minConfidence` and never filters.  A response validating to one
record of confidence 0.5 yields the *same* return value under
`minConfidence = 0.3` and `minConfidence = 0.7`; in particular the record
is not included in the returned result under `minConfidence = 0.3` (the
result carries no `faqs` list at all, only the raw text), contradicting
the claim's "included when minConfidence=0.3". -/
theorem C1_counterexample :
    parseFAQResponse genEnvHalf.jsonParse genEnvHalf.modelText = some ⟨[faqHalf]⟩ ∧
    faqHalf.confidence = 1 / 2 ∧
    opts03.minConfidence ≤ faqHalf.confidence ∧
    faqHalf.confidence < opts07.minConfidence ∧
    generateFAQRun genEnvHalf [] opts03 = generateFAQRun genEnvHalf [] opts07 ∧
    (generateFAQRun genEnvHalf [] opts03).faqs = none ∧
    (generateFAQRun genEnvHalf [] opts03).success = true ∧
    ∃ s, (generateFAQRun genEnvHalf [] opts03).stats = some s ∧ s.totalFaqs = 1 := by
  have hok : genEnvHalf.genOk = true := rfl
  refine ⟨parseHalf, rfl, ?_, ?_, rfl, ?_, ?_, ?_⟩
  · show (3 : ℚ) / 10 ≤ 1 / 2
    norm_num
  · show (1 : ℚ) / 2 < 7 / 10
    norm_num
  · simp [generateFAQRun, parseHalf, hok]
  · simp [generateFAQRun, parseHalf, hok]
  · exact ⟨⟨1, 1, estimateTokens genEnvHalf.modelText.length 4,
      jsDivQ (sumConfidence [faqHalf]) 1, genEnvHalf.elapsedMs, "gpt-4o"⟩,
      by simp [generateFAQRun, parseHalf, hok], rfl⟩

/-- C1 (amended): `generateFAQTask` accepts `minConfidence` in its options
schema but ignores it entirely — the returned value is independent of the
options, carries no record list (`faqs` stays `undefined`), and its
statistics count every parsed record regardless of confidence. -/
theorem C1_amended_no_filtering (env : GenEnv) (pages : List ScrapedPage)
    (o o' : FAQOptions) (r : FAQResponse) (hok : env.genOk = true)
    (hp : parseFAQResponse env.jsonParse env.modelText = some r) :
    generateFAQRun env pages o = generateFAQRun env pages o' ∧
    (generateFAQRun env pages o).faqs = none ∧
    (generateFAQRun env pages o).stats = some
      { totalFaqs := r.faqs.length, processedChunks := 1,
        totalTokens := estimateTokens env.modelText.length 4,
        averageConfidence := jsDivQ (sumConfidence r.faqs) r.faqs.length,
        processingTimeMs := env.elapsedMs, model := "gpt-4o" } := by
  refine ⟨rfl, ?_, ?_⟩ <;> simp [generateFAQRun, hok, hp]

/-- Witness for C1 (amended), instantiated at the 0.5-confidence record
and thresholds 0.3 and 0.7. -/
theorem C1_witness :
    generateFAQRun genEnvHalf [] opts03 = generateFAQRun genEnvHalf [] opts07 ∧
    (generateFAQRun genEnvHalf [] opts03).faqs = none :=
  ⟨(C1_amended_no_filtering genEnvHalf [] opts03 opts07 ⟨[faqHalf]⟩ rfl parseHalf).1,
   (C1_amended_no_filtering genEnvHalf [] opts03 opts07 ⟨[faqHalf]⟩ rfl parseHalf).2.1⟩

/-! ### Claim C2 (corrected) -/

/-- C2 fails on the code: `withRetry` re-raises immediately only on
`permanent`; a `validation`-classified failure falls through to the
backoff and is retried.  An operation failing with a
`validation`-classified error on every attempt runs all 3 attempts, not
exactly 1 as the claim requires. -/
theorem C2_counterexample :
    valErr.classified = some ErrorCategory.validation ∧
    (withRetry valOp 3 1000 jitter0).attemptsMade = 3 ∧
    (withRetry valOp 3 1000 jitter0).attemptsMade ≠ 1 := by
  exact ⟨rfl, by decide, by decide⟩

/-- C2 (amended): only a failure classified `permanent` makes `withRetry`
re-raise immediately with exactly one total attempt; a failure with any
other classification (`validation` included) is treated like `transient`
and, when attempts remain, leads to at least a second attempt. -/
theorem C2_amended_only_permanent (α : Type) (op : Nat → Except JsError α)
    (e : JsError) (maxA : Nat) (delayMs : ℚ) (jitter : Nat → ℚ)
    (h1 : op 1 = Except.error e) :
    (e.classified = some ErrorCategory.permanent →
      withRetry op (maxA + 1) delayMs jitter = ⟨Except.error (some e), 1, []⟩) ∧
    (e.classified ≠ some ErrorCategory.permanent → 1 ≤ maxA →
      2 ≤ (withRetry op (maxA + 1) delayMs jitter).attemptsMade) := by
  constructor
  · intro hperm
    rw [withRetry, retryLoop]
    simp [h1, hperm]
  · intro hperm hge
    rw [withRetry, retryLoop]
    have hm0 : maxA ≠ 0 := by omega
    simp only [h1, if_neg hperm, if_neg hm0]
    exact retryLoop_ge op delayMs jitter maxA 2 _ _ (by omega)

/-- Witness for C2 (amended): a first-attempt `permanent` failure stops
after one attempt, while a first-attempt `validation` failure reaches a
second attempt. -/
theorem C2_witness :
    withRetry permOp 3 1000 jitter0 = ⟨Except.error (some permErr), 1, []⟩ ∧
    2 ≤ (withRetry valOp 3 1000 jitter0).attemptsMade :=
  ⟨(C2_amended_only_permanent Nat permOp permErr 2 1000 jitter0 rfl).1 rfl,
   (C2_amended_only_permanent Nat valOp valErr 2 1000 jitter0 rfl).2 (by decide) (by decide)⟩

/-! ### Claim C7 -/

/-- C7: in `withRetry`, the sleep recorded after failed attempt `k` is
`baseDelayMs * 2^(k-1) + jitter` with the jitter drawn from
`[0, 1000)` ms; ignoring jitter the backoff grows strictly with the
attempt number (for a positive base delay), and an operation that fails
non-permanently twice and succeeds on attempt 3 returns the success value
after exactly 3 attempts with those two recorded delays. -/
theorem C7_exponential_backoff (α : Type) (op : Nat → Except JsError α) (v : α)
    (e1 e2 : JsError) (delayMs : ℚ) (jitter : Nat → ℚ)
    (h1 : op 1 = Except.error e1) (h2 : op 2 = Except.error e2)
    (h3 : op 3 = Except.ok v)
    (hp1 : e1.classified ≠ some ErrorCategory.permanent)
    (hp2 : e2.classified ≠ some ErrorCategory.permanent)
    (hj : ∀ k, 0 ≤ jitter k ∧ jitter k < 1000) (hd : 0 < delayMs) :
    withRetry op 3 delayMs jitter =
      ⟨Except.ok v, 3,
       [delayMs * 2 ^ (1 - 1) + jitter 1, delayMs * 2 ^ (2 - 1) + jitter 2]⟩ ∧
    (∀ k : Nat, delayMs * 2 ^ k < delayMs * 2 ^ (k + 1)) ∧
    (∀ k : Nat, delayMs * 2 ^ (k - 1) ≤ delayMs * 2 ^ (k - 1) + jitter k ∧
       delayMs * 2 ^ (k - 1) + jitter k < delayMs * 2 ^ (k - 1) + 1000) := by
  refine ⟨?_, ?_, ?_⟩
  · rw [withRetry, retryLoop]
    simp only [h1, if_neg hp1]
    norm_num
    rw [retryLoop]
    simp only [h2, if_neg hp2]
    norm_num
    rw [retryLoop]
    simp [h3]
  · intro k
    have hpow : (2 : ℚ) ^ k < 2 ^ (k + 1) := by
      have := pow_lt_pow_right₀ (a := (2 : ℚ)) one_lt_two (Nat.lt_succ_self k)
      exact this
    exact mul_lt_mul_of_pos_left hpow hd
  · intro k
    constructor
    · exact le_add_of_nonneg_right (hj k).1
    · exact add_lt_add_left (hj k).2 _

/-- Witness for C7 at a concrete twice-failing operation, base delay
1000 ms and constant jitter 500 ms: success value 42 on attempt 3, delays
1500 and 2500. -/
theorem C7_witness :
    withRetry flaky23 3 1000 jitter500 =
      ⟨Except.ok 42, 3, [1000 * 2 ^ (1 - 1) + jitter500 1, 1000 * 2 ^ (2 - 1) + jitter500 2]⟩ ∧
    (1000 : ℚ) * 2 ^ 0 < 1000 * 2 ^ 1 :=
  ⟨(C7_exponential_backoff Nat flaky23 42
      ⟨"timeout", some ErrorCategory.transient⟩ ⟨"timeout", some ErrorCategory.transient⟩
      1000 jitter500 rfl rfl rfl (by decide) (by decide)
      (fun _ => by constructor <;> norm_num [jitter500]) (by norm_num)).1,
   ((C7_exponential_backoff Nat flaky23 42
      ⟨"timeout", some ErrorCategory.transient⟩ ⟨"timeout", some ErrorCategory.transient⟩
      1000 jitter500 rfl rfl rfl (by decide) (by decide)
      (fun _ => by constructor <;> norm_num [jitter500]) (by norm_num)).2.1) 0⟩

/-! ### Claim C9 -/

/-- C9: a `scrapeWebsiteTask` run whose crawl completes with zero
successfully scraped pages still returns `success:true` with an empty
pages list and stats of zero pages and zero content — with
`averageContentLength` being the unguarded `Math.round(0/0) = NaN`,
modelled as `none`. -/
theorem C9_zero_pages_success (env : TaskEnv) (url errMsg : String)
    (maxPages fuel : Nat) (hb : env.browserOk = true)
    (h0 : (taskCrawl env url maxPages fuel).results = []) :
    scrapeWebsiteTaskRun env url maxPages fuel errMsg =
      { success := true, pages := some [], stats := some ⟨0, 0, none⟩,
        error := none } := by
  simp [scrapeWebsiteTaskRun, hb, scrapeTaskReturn, h0, totalContentLength, jsRoundDiv]

/-- Witness for C9 at a concrete environment where every navigation
fails. -/
theorem C9_witness :
    scrapeWebsiteTaskRun envNoPages "http://x.com/" 5 5 "e" =
      { success := true, pages := some [], stats := some ⟨0, 0, none⟩,
        error := none } :=
  C9_zero_pages_success envNoPages "http://x.com/" "e" 5 5 rfl (by decide)

/-! ### Claim C10 -/

/-- C10: `generateFAQTask` computes `averageConfidence` as the sum of the
parsed records' confidences divided by their count, with the division
unguarded; hence a model response that parses and validates to an empty
`faqs` array yields `success:true`, `totalFaqs = 0`, and
`averageConfidence = NaN` (the `0/0`, modelled as `none`). -/
theorem C10_average_confidence_unguarded (env : GenEnv) (pages : List ScrapedPage)
    (options : FAQOptions) (r : FAQResponse) (hok : env.genOk = true)
    (hp : parseFAQResponse env.jsonParse env.modelText = some r) :
    ((generateFAQRun env pages options).stats = some
      { totalFaqs := r.faqs.length, processedChunks := 1,
        totalTokens := estimateTokens env.modelText.length 4,
        averageConfidence := jsDivQ (sumConfidence r.faqs) r.faqs.length,
        processingTimeMs := env.elapsedMs, model := "gpt-4o" }) ∧
    (r.faqs = [] →
      generateFAQRun env pages options =
        { success := true, faqs := none, text := some env.modelText,
          stats := some ⟨0, 1, estimateTokens env.modelText.length 4, none,
            env.elapsedMs, "gpt-4o"⟩,
          error := none }) := by
  constructor
  · simp [generateFAQRun, hok, hp]
  · intro h0
    simp [generateFAQRun, hok, hp, h0, jsDivQ, sumConfidence]

/-- Witness for C10 at a concrete environment whose response parses to an
empty `faqs` array. -/
theorem C10_witness :
    generateFAQRun genEnvEmpty [] opts07 =
      { success := true, faqs := none, text := some genEnvEmpty.modelText,
        stats := some ⟨0, 1, estimateTokens genEnvEmpty.modelText.length 4, none,
          genEnvEmpty.elapsedMs, "gpt-4o"⟩,
        error := none } :=
  (C10_average_confidence_unguarded genEnvEmpty [] opts07 ⟨[]⟩ rfl parseEmpty).2 rfl

end WhatTheFAQ
